import Mathlib

/-!
# Verification of the `fetch` retry package

A shallow embedding of the Go package `fetch` (files `fetch.go`,
`testserver.go`): retriable remote HTTP requests.  Pure logic (the retry
loop, the error classifier, the outcome mapping of `Get`) is translated
directly from the source.  Effects are made explicit:

* Go `error` interface values become `Option GoErr` (`none` = Go `nil`);
* the external `github.com/stockparfait/errors` library's `Annotate` and
  `Reason` are modelled as constructors that keep the underlying cause,
  matching their documented behavior (annotations add context without
  discarding the cause, which stays unwrappable);
* `time.Duration` is Go's `int64` of nanoseconds, modelled as `Int` with
  explicit wrap-around where the code multiplies;
* the context is modelled by the observations `Retry` makes of it: a
  done-flag per poll (the `select` on `ctx.Done()` at the top of each
  loop iteration) and the cancellation error `ctx.Err()`;
* `time.Sleep` and the invocations of the attempt callback are recorded in
  the result structure so that counting and ordering claims can be stated;
* a Go panic (nil-pointer dereference) is modelled by an `Option` result
  being `none`.
-/

namespace Fetch

/-- Wrap-around of Go's signed 64-bit integers (`time.Duration` is `int64`). -/
def wrap64 (x : Int) : Int := (x + 2 ^ 63) % 2 ^ 64 - 2 ^ 63

/-- Model of the Go `error` values appearing in the package.
`base msg` is an opaque external error whose `Error()` returns `msg`;
`retriable cause` is `*fetch.RetriableError{Err: cause}` (fetch.go:50-52),
whose `Err` field may be Go-`nil` (`none`);
`annotated msg cause` is the result of `errors.Annotate(cause, msg)` of the
external stockparfait errors library (cause kept, unwrappable);
`reason msg` is `errors.Reason(msg)`. -/
inductive GoErr where
  | base (msg : String) : GoErr
  | retriable (cause : Option GoErr) : GoErr
  | annotated (msg : String) (cause : Option GoErr) : GoErr
  | reason (msg : String) : GoErr

/-- `errors.Annotate(e, msg)` of the external errors library: wraps the
cause with a message, keeping the cause. -/
def annotate (msg : String) (cause : Option GoErr) : Option GoErr :=
  some (.annotated msg cause)

/-- `errors.Unwrap`-style cause extraction on the modelled errors:
annotations and the retriable wrapper expose their cause. -/
def goErrUnwrap : GoErr → Option GoErr
  | .base _ => none
  | .retriable cause => cause
  | .annotated _ cause => cause
  | .reason _ => none

/-- The `Error()` string method of the modelled errors.  `none` models a
panic: `(*RetriableError).Error` (fetch.go:54-56) evaluates `e.Err.Error()`,
which dereferences a nil pointer when `Err` is Go-`nil`. -/
def goErrMessage : GoErr → Option String
  | .base msg => some msg
  | .retriable none => none
  | .retriable (some e) => goErrMessage e
  | .annotated msg none => some msg
  | .annotated msg (some e) =>
      (goErrMessage e).map (fun s => msg ++ ": " ++ s)
  | .reason msg => some msg

/-- `NewRetriableError` (fetch.go:59-61): makes the given error retriable. -/
def NewRetriableError (e : Option GoErr) : GoErr := .retriable e

/-- `Params` (fetch.go:64-69): the retry policy.  Durations are `int64`
nanoseconds, `NumRetries` a Go `int`. -/
structure Params where
  NumRetries : Int
  RetryMinWait : Int
  RetryMaxWait : Int
  IsRetriable : GoErr → Bool

/-- The default classifier installed by `NewParams` (fetch.go:77-80):
the Go type assertion `e.(*RetriableError)`, true iff the dynamic type of
the error is exactly `*RetriableError` (no unwrapping). -/
def isRetriableDefault : GoErr → Bool
  | .retriable _ => true
  | _ => false

/-- `NewParams` (fetch.go:72-82): default retry policy. -/
def NewParams : Params :=
  { NumRetries := 3
    RetryMinWait := 1000000000
    RetryMaxWait := 60 * 1000000000
    IsRetriable := isRetriableDefault }

/-- One backoff update (fetch.go:134-137): `wait = 2 * wait` in `int64`
arithmetic, then clamp to `RetryMaxWait` when it exceeds it. -/
def clampStep (maxWait w : Int) : Int :=
  let w2 := wrap64 (2 * w)
  if w2 > maxWait then maxWait else w2

/-- The observable outcome of a `Retry` run: the returned error (`none` =
Go `nil`), the number of invocations of the attempt callback, and the
durations passed to `time.Sleep` in order. -/
structure RetryResult where
  ret : Option GoErr
  calls : Nat
  sleeps : List Int

/-- The loop of `Retry` (fetch.go:120-139).  `ctxDone i` is whether the
`select` on `ctx.Done()` fires at the check preceding attempt `i`;
`ctxErr` is `ctx.Err()`; `fn` is the attempt callback; `fuel` is the
number of loop iterations still allowed by `i <= params.NumRetries`;
`lastErr` is the current value of the loop-carried `err` variable. -/
def retryLoop (ctxDone : Nat → Bool) (ctxErr : GoErr) (p : Params)
    (fn : Nat → Option GoErr) :
    Nat → Nat → Int → Option GoErr → RetryResult
  | 0, _i, _wait, lastErr =>
      ⟨annotate ("exhausted " ++ toString p.NumRetries ++ " retries") lastErr,
       0, []⟩
  | fuel + 1, i, wait, _lastErr =>
      if ctxDone i then
        ⟨annotate "context is canceled" (some ctxErr), 0, []⟩
      else
        match fn i with
        | none => ⟨none, 1, []⟩
        | some e =>
            if p.IsRetriable e then
              let r := retryLoop ctxDone ctxErr p fn fuel (i + 1)
                (clampStep p.RetryMaxWait wait) (some e)
              ⟨r.ret, r.calls + 1, wait :: r.sleeps⟩
            else
              ⟨annotate "error cannot be retried" (some e), 1, []⟩

/-- `Retry` (fetch.go:117-140).  The Go loop `for i := 0; i <= NumRetries`
runs `NumRetries + 1` iterations when `NumRetries ≥ 0` and none when it is
negative; `wait` starts at `RetryMinWait` and `err` at `nil`. -/
def Retry (ctxDone : Nat → Bool) (ctxErr : GoErr) (p : Params)
    (fn : Nat → Option GoErr) : RetryResult :=
  retryLoop ctxDone ctxErr p fn
    (if p.NumRetries < 0 then 0 else p.NumRetries.toNat + 1)
    0 p.RetryMinWait none

/-- An HTTP response as observed by this package: status code, the status
line `resp.Status`, and the body text read for error reporting. -/
structure HTTPResponse where
  StatusCode : Int
  Status : String
  Body : String
deriving DecidableEq, Repr

/-- `ResponseOK` (fetch.go:143-145): code 2xx. -/
def ResponseOK (r : HTTPResponse) : Bool :=
  200 ≤ r.StatusCode && r.StatusCode ≤ 299

/-- `ResponseRetriable` (fetch.go:149-151): code 5xx. -/
def ResponseRetriable (r : HTTPResponse) : Bool :=
  500 ≤ r.StatusCode && r.StatusCode ≤ 599

/-- What the transport layer did for one `Get` call: request construction
failed (`http.NewRequestWithContext` error), `client.Get` returned a
non-nil error (possibly alongside a response handle), or `client.Get`
succeeded with a response. -/
inductive TransportOutcome where
  | reqError (e : GoErr)
  | getError (resp : Option HTTPResponse) (e : GoErr)
  | response (resp : HTTPResponse)

/-- `Get` (fetch.go:157-185) as a function of the transport outcome:
maps the outcome to the returned `(resp, err)` pair.  In the branch for a
retriable (5xx) status the transport error `err` is necessarily Go-`nil`
(the `err != nil` branch returned earlier), so `NewRetriableError(err)`
wraps `nil` (fetch.go:177-179). -/
def Get (uri : String) (t : TransportOutcome) :
    Option HTTPResponse × Option GoErr :=
  match t with
  | .reqError e => (none, annotate "failed to create HTTP request" (some e))
  | .getError resp e => (resp, annotate "failed to GET URL" (some e))
  | .response resp =>
      if ResponseOK resp then (some resp, none)
      else if ResponseRetriable resp then
        (some resp, some (NewRetriableError none))
      else
        (some resp, some (.reason ("url: " ++ uri ++ ", response code " ++
          resp.Status ++ ", body: " ++ resp.Body)))

end Fetch

namespace Fetch

/-- `wrap64` is the identity on the `int64` range. -/
theorem wrap64_eq_self (x : Int) (h1 : -(2 ^ 63) ≤ x) (h2 : x < 2 ^ 63) :
    wrap64 x = x := by
  unfold wrap64
  have e1 : (2 : Int) ^ 63 = 9223372036854775808 := by norm_num
  have e2 : (2 : Int) ^ 64 = 18446744073709551616 := by norm_num
  rw [e1, e2]
  rw [e1] at h1 h2
  omega

/-- Away from `int64` overflow, the backoff update is
`min (2 * wait) maxWait`. -/
theorem clampStep_eq_min (maxWait w : Int) (hw0 : 0 ≤ w) (hw : w ≤ 2 ^ 61) :
    clampStep maxWait w = min (2 * w) maxWait := by
  unfold clampStep
  have h63 : (2 : Int) ^ 61 < 2 ^ 63 := by norm_num
  rw [wrap64_eq_self (2 * w) (by omega) (by omega)]
  rw [Int.min_def]
  show (if 2 * w > maxWait then maxWait else 2 * w) = _
  split <;> split <;> omega

/-- C3 (counterexample): the default classifier returns `false` on an error
that wraps a `RetriableError` inside an annotation, although the claim
requires `true` for such a wrapping error. -/
theorem default_classifier_wrapped_cex :
    NewParams.IsRetriable
      (GoErr.annotated "wrapped" (some (GoErr.retriable none))) = false := rfl

/-- C3 (amended): the default classifier installed by `NewParams` returns
`true` iff the error itself is a `RetriableError` (exact dynamic type, no
unwrapping); an error merely wrapping a `RetriableError` is rejected. -/
theorem default_classifier_exact_type (e : GoErr) :
    NewParams.IsRetriable e = true ↔ ∃ c, e = GoErr.retriable c := by
  cases e <;> simp [NewParams, isRetriableDefault]

/-- C4: when the transport call succeeds but the status is in [500, 599],
`Get` returns the response handle together with a non-nil `RetriableError`
wrapping the (nil) transport error, and the default classifier accepts it. -/
theorem get_5xx_returns_retriable_nil (uri : String) (resp : HTTPResponse)
    (h5 : 500 ≤ resp.StatusCode) (h5' : resp.StatusCode ≤ 599) :
    Get uri (.response resp) = (some resp, some (NewRetriableError none)) ∧
    NewParams.IsRetriable (NewRetriableError none) = true := by
  refine ⟨?_, rfl⟩
  have hok : ResponseOK resp = false := by
    simp only [ResponseOK, Bool.and_eq_false_iff, decide_eq_false_iff_not]
    omega
  have hre : ResponseRetriable resp = true := by
    simp only [ResponseRetriable, Bool.and_eq_true, decide_eq_true_eq]
    omega
  simp [Get, hok, hre]

theorem get_5xx_returns_retriable_nil_witness :
    (500 : Int) ≤ 500 ∧ (500 : Int) ≤ 599 ∧
    (Get "http://x" (.response ⟨500, "500 Internal Server Error", ""⟩) =
        (some ⟨500, "500 Internal Server Error", ""⟩,
         some (NewRetriableError none)) ∧
      NewParams.IsRetriable (NewRetriableError none) = true) :=
  ⟨by norm_num, by norm_num,
   get_5xx_returns_retriable_nil "http://x" ⟨500, "500 Internal Server Error", ""⟩
     (by norm_num) (by norm_num)⟩

/-- C8: with a non-negative retry budget (the spec's data-model invariant)
and a context already done at the first poll, `Retry` makes zero attempt
invocations, sleeps never, and returns the context's cancellation error,
annotated. -/
theorem retry_precancelled_zero_calls (ctxDone : Nat → Bool) (ctxErr : GoErr)
    (p : Params) (fn : Nat → Option GoErr)
    (hN : 0 ≤ p.NumRetries) (hd : ctxDone 0 = true) :
    Retry ctxDone ctxErr p fn =
      ⟨annotate "context is canceled" (some ctxErr), 0, []⟩ := by
  unfold Retry
  rw [if_neg (by omega)]
  simp [retryLoop, hd]

theorem retry_precancelled_zero_calls_witness :
    (0 : Int) ≤ (3 : Int) ∧ ((fun _ : Nat => true) 0 = true) ∧
    Retry (fun _ => true) (.base "ctx cancelled") ⟨3, 1, 10, isRetriableDefault⟩
        (fun _ => some (.retriable none)) =
      ⟨annotate "context is canceled" (some (.base "ctx cancelled")), 0, []⟩ :=
  ⟨by norm_num, rfl,
   retry_precancelled_zero_calls (fun _ => true) (.base "ctx cancelled")
     ⟨3, 1, 10, isRetriableDefault⟩ (fun _ => some (.retriable none))
     (by norm_num) rfl⟩

/-- C9: with a negative retry budget and a never-done context, the loop body
never runs: zero attempt invocations, no sleep, and the returned value is the
exhaustion annotation applied to the nil last-observed error. -/
theorem retry_negative_budget (ctxDone : Nat → Bool) (ctxErr : GoErr)
    (p : Params) (fn : Nat → Option GoErr)
    (hN : p.NumRetries < 0) (hd : ∀ i, ctxDone i = false) :
    Retry ctxDone ctxErr p fn =
      ⟨annotate ("exhausted " ++ toString p.NumRetries ++ " retries") none,
       0, []⟩ := by
  unfold Retry
  rw [if_pos hN]
  rfl

theorem retry_negative_budget_witness :
    (-1 : Int) < 0 ∧ (∀ i : Nat, (fun _ : Nat => false) i = false) ∧
    Retry (fun _ => false) (.base "c") ⟨-1, 5, 7, isRetriableDefault⟩
        (fun _ => some (.base "e")) =
      ⟨annotate ("exhausted " ++ toString (-1 : Int) ++ " retries") none,
       0, []⟩ :=
  ⟨by norm_num, fun _ => rfl,
   retry_negative_budget (fun _ => false) (.base "c")
     ⟨-1, 5, 7, isRetriableDefault⟩ (fun _ => some (.base "e"))
     (by norm_num) (fun _ => rfl)⟩

/-- C10: the error value `Get` returns for a 5xx status after a successful
transport call is a `RetriableError` whose wrapped error is nil, and calling
its `Error()` method dereferences that nil error (modelled as `none`): it
panics. -/
theorem retriable_error_message_panics (uri : String) (resp : HTTPResponse)
    (h5 : 500 ≤ resp.StatusCode) (h5' : resp.StatusCode ≤ 599) :
    (Get uri (.response resp)).2 = some (GoErr.retriable none) ∧
    goErrMessage (GoErr.retriable none) = none := by
  refine ⟨?_, rfl⟩
  have hok : ResponseOK resp = false := by
    simp only [ResponseOK, Bool.and_eq_false_iff, decide_eq_false_iff_not]
    omega
  have hre : ResponseRetriable resp = true := by
    simp only [ResponseRetriable, Bool.and_eq_true, decide_eq_true_eq]
    omega
  simp [Get, hok, hre, NewRetriableError]

theorem retriable_error_message_panics_witness :
    (500 : Int) ≤ 503 ∧ (503 : Int) ≤ 599 ∧
    ((Get "http://y" (.response ⟨503, "503 Service Unavailable", "b"⟩)).2 =
        some (GoErr.retriable none) ∧
      goErrMessage (GoErr.retriable none) = none) :=
  ⟨by norm_num, by norm_num,
   retriable_error_message_panics "http://y"
     ⟨503, "503 Service Unavailable", "b"⟩ (by norm_num) (by norm_num)⟩

end Fetch

namespace Fetch

/-- One unfolding of the loop body, stated so that the recursive call is
exposed exactly once. -/
theorem retryLoop_one_step (ctxDone : Nat → Bool) (ctxErr : GoErr)
    (p : Params) (fn : Nat → Option GoErr) (fuel i : Nat) (w : Int)
    (l : Option GoErr) :
    retryLoop ctxDone ctxErr p fn (fuel + 1) i w l =
      if ctxDone i then
        ⟨annotate "context is canceled" (some ctxErr), 0, []⟩
      else
        match fn i with
        | none => ⟨none, 1, []⟩
        | some e =>
            if p.IsRetriable e then
              ⟨(retryLoop ctxDone ctxErr p fn fuel (i + 1)
                  (clampStep p.RetryMaxWait w) (some e)).ret,
               (retryLoop ctxDone ctxErr p fn fuel (i + 1)
                  (clampStep p.RetryMaxWait w) (some e)).calls + 1,
               w :: (retryLoop ctxDone ctxErr p fn fuel (i + 1)
                  (clampStep p.RetryMaxWait w) (some e)).sleeps⟩
            else ⟨annotate "error cannot be retried" (some e), 1, []⟩ := rfl

/-- If the context is never done and every attempt fails retriably over
`fuel + 1` consecutive indices starting at `i`, the loop makes `fuel + 1`
invocations and returns the exhaustion annotation of the last error. -/
theorem retryLoop_all_retriable (ctxDone : Nat → Bool) (ctxErr : GoErr)
    (p : Params) (fn : Nat → Option GoErr) :
    ∀ (fuel i : Nat) (w : Int) (l : Option GoErr),
    (∀ j, j ≤ fuel → ctxDone (i + j) = false) →
    (∀ j, j ≤ fuel → ∃ e, fn (i + j) = some e ∧ p.IsRetriable e = true) →
    (retryLoop ctxDone ctxErr p fn (fuel + 1) i w l).calls = fuel + 1 ∧
    (retryLoop ctxDone ctxErr p fn (fuel + 1) i w l).ret =
      annotate ("exhausted " ++ toString p.NumRetries ++ " retries")
        (fn (i + fuel)) := by
  intro fuel
  induction fuel with
  | zero =>
    intro i w l hd hf
    obtain ⟨e, hfe, hre⟩ := hf 0 (Nat.le_refl 0)
    have hd0 := hd 0 (Nat.le_refl 0)
    simp only [Nat.add_zero] at hfe hd0 ⊢
    simp [retryLoop, hd0, hfe, hre]
  | succ f ih =>
    intro i w l hd hf
    obtain ⟨e, hfe, hre⟩ := hf 0 (Nat.zero_le _)
    have hd0 := hd 0 (Nat.zero_le _)
    simp only [Nat.add_zero] at hfe hd0
    have ihh := ih (i + 1) (clampStep p.RetryMaxWait w) (some e)
      (fun j hj => by
        have h := hd (j + 1) (by omega)
        rw [show i + (j + 1) = i + 1 + j by omega] at h
        exact h)
      (fun j hj => by
        have h := hf (j + 1) (by omega)
        rw [show i + (j + 1) = i + 1 + j by omega] at h
        exact h)
    rw [show i + (f + 1) = i + 1 + f by omega]
    rw [retryLoop_one_step, hd0, hfe]
    simp only [Bool.false_eq_true, if_false, hre, if_true]
    refine ⟨?_, ?_⟩
    · show (retryLoop ctxDone ctxErr p fn (f + 1) (i + 1)
          (clampStep p.RetryMaxWait w) (some e)).calls + 1 = f + 1 + 1
      rw [ihh.1]
    · show (retryLoop ctxDone ctxErr p fn (f + 1) (i + 1)
          (clampStep p.RetryMaxWait w) (some e)).ret = _
      exact ihh.2

/-- If the first `k` attempts (from index `i`) fail retriably with the
context never done, and attempt `k` (still within the loop bound) succeeds,
the loop returns nil after exactly `k + 1` invocations. -/
theorem retryLoop_success_at (ctxDone : Nat → Bool) (ctxErr : GoErr)
    (p : Params) (fn : Nat → Option GoErr) :
    ∀ (k fuel i : Nat) (w : Int) (l : Option GoErr), k < fuel →
    (∀ j, j < k → ctxDone (i + j) = false ∧
      ∃ e, fn (i + j) = some e ∧ p.IsRetriable e = true) →
    ctxDone (i + k) = false → fn (i + k) = none →
    (retryLoop ctxDone ctxErr p fn fuel i w l).ret = none ∧
    (retryLoop ctxDone ctxErr p fn fuel i w l).calls = k + 1 := by
  intro k
  induction k with
  | zero =>
    intro fuel i w l hk hbef hdk hfk
    obtain ⟨f, rfl⟩ : ∃ f, fuel = f + 1 := ⟨fuel - 1, by omega⟩
    simp only [Nat.add_zero] at hdk hfk
    simp [retryLoop, hdk, hfk]
  | succ m ih =>
    intro fuel i w l hk hbef hdk hfk
    obtain ⟨f, rfl⟩ : ∃ f, fuel = f + 1 := ⟨fuel - 1, by omega⟩
    obtain ⟨hd0, e, hfe, hre⟩ := hbef 0 (Nat.succ_pos m)
    simp only [Nat.add_zero] at hd0 hfe
    have ihh := ih f (i + 1) (clampStep p.RetryMaxWait w) (some e) (by omega)
      (fun j hj => by
        have h := hbef (j + 1) (by omega)
        rw [show i + (j + 1) = i + 1 + j by omega] at h
        exact h)
      (by rw [show i + 1 + m = i + (m + 1) by omega]; exact hdk)
      (by rw [show i + 1 + m = i + (m + 1) by omega]; exact hfk)
    rw [retryLoop_one_step, hd0, hfe]
    simp only [Bool.false_eq_true, if_false, hre, if_true]
    refine ⟨?_, ?_⟩
    · show (retryLoop ctxDone ctxErr p fn f (i + 1)
          (clampStep p.RetryMaxWait w) (some e)).ret = none
      exact ihh.1
    · show (retryLoop ctxDone ctxErr p fn f (i + 1)
          (clampStep p.RetryMaxWait w) (some e)).calls + 1 = m + 1 + 1
      rw [ihh.2]

/-- If the first `m` attempts (from index `i`) fail retriably with the
context never done, and attempt `m` (still within the loop bound) fails with
an error the classifier rejects, the loop stops there: the non-retriable
annotation of that error is returned after exactly `m + 1` invocations. -/
theorem retryLoop_nonretriable_at (ctxDone : Nat → Bool) (ctxErr : GoErr)
    (p : Params) (fn : Nat → Option GoErr) :
    ∀ (m fuel i : Nat) (w : Int) (l : Option GoErr) (e : GoErr), m < fuel →
    (∀ j, j < m → ctxDone (i + j) = false ∧
      ∃ e2, fn (i + j) = some e2 ∧ p.IsRetriable e2 = true) →
    ctxDone (i + m) = false → fn (i + m) = some e → p.IsRetriable e = false →
    (retryLoop ctxDone ctxErr p fn fuel i w l).ret =
      annotate "error cannot be retried" (some e) ∧
    (retryLoop ctxDone ctxErr p fn fuel i w l).calls = m + 1 := by
  intro m
  induction m with
  | zero =>
    intro fuel i w l e hk hbef hdm hfm hre
    obtain ⟨f, rfl⟩ : ∃ f, fuel = f + 1 := ⟨fuel - 1, by omega⟩
    simp only [Nat.add_zero] at hdm hfm
    simp [retryLoop, hdm, hfm, hre]
  | succ m ih =>
    intro fuel i w l e hk hbef hdm hfm hre
    obtain ⟨f, rfl⟩ : ∃ f, fuel = f + 1 := ⟨fuel - 1, by omega⟩
    obtain ⟨hd0, e2, hfe2, hre2⟩ := hbef 0 (Nat.succ_pos m)
    simp only [Nat.add_zero] at hd0 hfe2
    have ihh := ih f (i + 1) (clampStep p.RetryMaxWait w) (some e2) e (by omega)
      (fun j hj => by
        have h := hbef (j + 1) (by omega)
        rw [show i + (j + 1) = i + 1 + j by omega] at h
        exact h)
      (by rw [show i + 1 + m = i + (m + 1) by omega]; exact hdm)
      (by rw [show i + 1 + m = i + (m + 1) by omega]; exact hfm)
      hre
    rw [retryLoop_one_step, hd0, hfe2]
    simp only [Bool.false_eq_true, if_false, hre2, if_true]
    refine ⟨?_, ?_⟩
    · show (retryLoop ctxDone ctxErr p fn f (i + 1)
          (clampStep p.RetryMaxWait w) (some e2)).ret =
        annotate "error cannot be retried" (some e)
      exact ihh.1
    · show (retryLoop ctxDone ctxErr p fn f (i + 1)
          (clampStep p.RetryMaxWait w) (some e2)).calls + 1 = m + 1 + 1
      rw [ihh.2]

/-- The backoff sleeps recorded by the loop are an initial segment of the
orbit of `clampStep RetryMaxWait` starting at the current wait. -/
theorem retryLoop_sleeps_iterate (ctxDone : Nat → Bool) (ctxErr : GoErr)
    (p : Params) (fn : Nat → Option GoErr) :
    ∀ (fuel i : Nat) (w : Int) (l : Option GoErr), ∃ k,
      (retryLoop ctxDone ctxErr p fn fuel i w l).sleeps =
        (List.range k).map (fun j => (clampStep p.RetryMaxWait)^[j] w) := by
  intro fuel
  induction fuel with
  | zero => intro i w l; exact ⟨0, rfl⟩
  | succ f ih =>
    intro i w l
    by_cases hd : ctxDone i = true
    · exact ⟨0, by simp [retryLoop, hd]⟩
    · rw [Bool.not_eq_true] at hd
      cases hfn : fn i with
      | none => exact ⟨0, by simp [retryLoop, hd, hfn]⟩
      | some e =>
        by_cases hre : p.IsRetriable e = true
        · obtain ⟨k, hk⟩ := ih (i + 1) (clampStep p.RetryMaxWait w) (some e)
          refine ⟨k + 1, ?_⟩
          rw [retryLoop_one_step, hd, hfn]
          simp only [Bool.false_eq_true, if_false, hre, if_true]
          show w :: (retryLoop ctxDone ctxErr p fn f (i + 1)
              (clampStep p.RetryMaxWait w) (some e)).sleeps = _
          rw [hk, List.range_succ_eq_map]
          simp [List.map_map, Function.comp_def, Function.iterate_succ_apply]
        · rw [Bool.not_eq_true] at hre
          exact ⟨0, by simp [retryLoop, hd, hfn, hre]⟩

/-- The sleeps of a full `Retry` run are an initial segment of the orbit of
the backoff update starting at `RetryMinWait`. -/
theorem retry_sleeps_iterate (ctxDone : Nat → Bool) (ctxErr : GoErr)
    (p : Params) (fn : Nat → Option GoErr) :
    ∃ k, (Retry ctxDone ctxErr p fn).sleeps =
      (List.range k).map
        (fun j => (clampStep p.RetryMaxWait)^[j] p.RetryMinWait) :=
  retryLoop_sleeps_iterate ctxDone ctxErr p fn _ 0 p.RetryMinWait none

/-- Away from overflow, the orbit of the backoff update stays in
`[0, 2 ^ 61]`. -/
theorem clampStep_iterate_bounds (maxWait w : Int)
    (hw0 : 0 ≤ w) (hw : w ≤ 2 ^ 61) (hm0 : 0 ≤ maxWait)
    (hm : maxWait ≤ 2 ^ 61) :
    ∀ j, 0 ≤ (clampStep maxWait)^[j] w ∧
      (clampStep maxWait)^[j] w ≤ 2 ^ 61 := by
  intro j
  induction j with
  | zero => simpa using ⟨hw0, hw⟩
  | succ n ihn =>
    rw [Function.iterate_succ_apply']
    obtain ⟨h0, h1⟩ := ihn
    rw [clampStep_eq_min _ _ h0 h1]
    rw [Int.min_def]
    constructor
    · split <;> omega
    · split <;> omega

end Fetch

namespace Fetch

/-- C1 (counterexample): with `NumRetries = 0`, `RetryMinWait = 1` and a
single retriable failure, the attempt function runs exactly once but a
backoff sleep of 1 is performed, refuting the claim that no sleep occurs
regardless of the attempt's outcome. -/
theorem retry_zero_budget_sleep_cex :
    (Retry (fun _ => false) (.base "c1") ⟨0, 1, 10, isRetriableDefault⟩
        (fun _ => some (.retriable none))).calls = 1 ∧
    (Retry (fun _ => false) (.base "c1") ⟨0, 1, 10, isRetriableDefault⟩
        (fun _ => some (.retriable none))).sleeps = [1] ∧
    ¬ ((Retry (fun _ => false) (.base "c1") ⟨0, 1, 10, isRetriableDefault⟩
        (fun _ => some (.retriable none))).sleeps = []) := by
  refine ⟨rfl, by decide, by decide⟩

/-- C1 (amended): with `NumRetries = 0` and a context not yet done at the
first poll, the attempt function is invoked exactly once; no sleep occurs
when that attempt succeeds or fails non-retriably, but when it fails
retriably a single backoff sleep of `RetryMinWait` is performed before
exhaustion is reported. -/
theorem retry_zero_budget (ctxDone : Nat → Bool) (ctxErr : GoErr)
    (p : Params) (fn : Nat → Option GoErr)
    (hN : p.NumRetries = 0) (hd : ctxDone 0 = false) :
    (Retry ctxDone ctxErr p fn).calls = 1 ∧
    (Retry ctxDone ctxErr p fn).sleeps =
      (match fn 0 with
       | none => []
       | some e =>
           if p.IsRetriable e then [p.RetryMinWait] else []) := by
  unfold Retry
  rw [hN]
  rw [if_neg (by norm_num)]
  rw [show (0 : Int).toNat + 1 = 0 + 1 by rfl]
  rw [retryLoop_one_step, hd]
  simp only [Bool.false_eq_true, if_false]
  cases hfn : fn 0 with
  | none => simp
  | some e =>
    by_cases hre : p.IsRetriable e = true
    · simp [hre, retryLoop]
    · rw [Bool.not_eq_true] at hre
      simp [hre]

theorem retry_zero_budget_witness :
    ((⟨0, 7, 9, isRetriableDefault⟩ : Params).NumRetries = 0) ∧
    ((fun _ : Nat => false) 0 = false) ∧
    ((Retry (fun _ => false) (.base "c2") ⟨0, 7, 9, isRetriableDefault⟩
        (fun _ => some (.retriable none))).calls = 1 ∧
     (Retry (fun _ => false) (.base "c2") ⟨0, 7, 9, isRetriableDefault⟩
        (fun _ => some (.retriable none))).sleeps = [7]) :=
  ⟨rfl, rfl,
   retry_zero_budget (fun _ => false) (.base "c2")
     ⟨0, 7, 9, isRetriableDefault⟩ (fun _ => some (.retriable none)) rfl rfl⟩

/-- C2 (counterexample): with `RetryMinWait = 5 > RetryMaxWait = 3` and two
retriable failures (so a retry occurs), the backoff waits are `[5, 3]`: the
very first wait is 5, which exceeds `RetryMaxWait = 3` instead of being
clamped down to it as the claim requires. -/
theorem retry_first_wait_unclamped_cex :
    (Retry (fun _ => false) (.base "c3") ⟨1, 5, 3, isRetriableDefault⟩
        (fun _ => some (.retriable none))).calls = 2 ∧
    (Retry (fun _ => false) (.base "c3") ⟨1, 5, 3, isRetriableDefault⟩
        (fun _ => some (.retriable none))).sleeps = [5, 3] ∧
    ¬ ((5 : Int) ≤ 3) := by
  refine ⟨rfl, by decide, by norm_num⟩

/-- C2 (amended): away from `int64` overflow, the backoff waits of any run
start at exactly `RetryMinWait` (never clamped, even when it exceeds
`RetryMaxWait`), and every later wait equals `min (2 * previous wait)
RetryMaxWait` — in particular every wait after the first is at most
`RetryMaxWait`. -/
theorem retry_backoff_waits (ctxDone : Nat → Bool) (ctxErr : GoErr)
    (p : Params) (fn : Nat → Option GoErr)
    (hmin0 : 0 ≤ p.RetryMinWait) (hmin : p.RetryMinWait ≤ 2 ^ 61)
    (hmax0 : 0 ≤ p.RetryMaxWait) (hmax : p.RetryMaxWait ≤ 2 ^ 61) :
    (∀ x : Int, (Retry ctxDone ctxErr p fn).sleeps[0]? = some x →
      x = p.RetryMinWait) ∧
    (∀ (j : Nat) (a b : Int),
      (Retry ctxDone ctxErr p fn).sleeps[j]? = some a →
      (Retry ctxDone ctxErr p fn).sleeps[j + 1]? = some b →
      b = min (2 * a) p.RetryMaxWait ∧ b ≤ p.RetryMaxWait) := by
  obtain ⟨k, hk⟩ := retry_sleeps_iterate ctxDone ctxErr p fn
  have hb := clampStep_iterate_bounds p.RetryMaxWait p.RetryMinWait
    hmin0 hmin hmax0 hmax
  rw [hk]
  constructor
  · intro x hx
    rcases Nat.lt_or_ge 0 k with h0 | h0
    · rw [List.getElem?_map, List.getElem?_range h0] at hx
      simp only [Option.map_some', Option.some.injEq] at hx
      simpa using hx.symm
    · rw [List.getElem?_map, List.getElem?_eq_none (by simpa using h0)]
        at hx
      exact Option.noConfusion hx
  · intro j a b ha hb2
    rcases Nat.lt_or_ge (j + 1) k with h1 | h1
    · have hj : j < k := by omega
      rw [List.getElem?_map, List.getElem?_range hj] at ha
      rw [List.getElem?_map, List.getElem?_range h1] at hb2
      simp only [Option.map_some', Option.some.injEq] at ha hb2
      obtain ⟨hj0, hj1⟩ := hb j
      subst ha
      subst hb2
      rw [Function.iterate_succ_apply', clampStep_eq_min _ _ hj0 hj1]
      exact ⟨rfl, by rw [Int.min_def]; split <;> omega⟩
    · rw [List.getElem?_map, List.getElem?_eq_none (by simpa using h1)]
        at hb2
      exact Option.noConfusion hb2

theorem retry_backoff_waits_witness :
    (0 : Int) ≤ 3 ∧ (3 : Int) ≤ 2 ^ 61 ∧ (0 : Int) ≤ 4 ∧
      (4 : Int) ≤ 2 ^ 61 ∧
    ((∀ x : Int,
        (Retry (fun _ => false) (.base "c4") ⟨2, 3, 4, isRetriableDefault⟩
          (fun _ => some (.retriable none))).sleeps[0]? = some x → x = 3) ∧
     (∀ (j : Nat) (a b : Int),
        (Retry (fun _ => false) (.base "c4") ⟨2, 3, 4, isRetriableDefault⟩
          (fun _ => some (.retriable none))).sleeps[j]? = some a →
        (Retry (fun _ => false) (.base "c4") ⟨2, 3, 4, isRetriableDefault⟩
          (fun _ => some (.retriable none))).sleeps[j + 1]? = some b →
        b = min (2 * a) 4 ∧ b ≤ 4)) :=
  ⟨by norm_num, by norm_num, by norm_num, by norm_num,
   retry_backoff_waits (fun _ => false) (.base "c4")
     ⟨2, 3, 4, isRetriableDefault⟩ (fun _ => some (.retriable none))
     (by norm_num) (by norm_num) (by norm_num) (by norm_num)⟩

/-- C5: with `NumRetries = N > 0`, a never-done context, and every attempt
failing with an error the classifier accepts, the attempt function is
invoked exactly `N + 1` times and the returned value is the last observed
error annotated as exhausted, the budget `N` included in the message. -/
theorem retry_exhausts_budget (ctxDone : Nat → Bool) (ctxErr : GoErr)
    (p : Params) (fn : Nat → Option GoErr)
    (hN : 0 < p.NumRetries)
    (hd : ∀ i, ctxDone i = false)
    (hf : ∀ i, ∃ e, fn i = some e ∧ p.IsRetriable e = true) :
    (Retry ctxDone ctxErr p fn).calls = p.NumRetries.toNat + 1 ∧
    (Retry ctxDone ctxErr p fn).ret =
      annotate ("exhausted " ++ toString p.NumRetries ++ " retries")
        (fn p.NumRetries.toNat) := by
  unfold Retry
  rw [if_neg (by omega)]
  have h := retryLoop_all_retriable ctxDone ctxErr p fn p.NumRetries.toNat 0
    p.RetryMinWait none (fun j _ => hd _) (fun j _ => hf _)
  simpa using h

theorem retry_exhausts_budget_witness :
    (0 : Int) < 2 ∧ (∀ i : Nat, (fun _ : Nat => false) i = false) ∧
    (∀ i : Nat, ∃ e, (fun _ : Nat => some (GoErr.retriable none)) i = some e ∧
      (⟨2, 1, 10, isRetriableDefault⟩ : Params).IsRetriable e = true) ∧
    ((Retry (fun _ => false) (.base "c5") ⟨2, 1, 10, isRetriableDefault⟩
        (fun _ => some (.retriable none))).calls = (2 : Int).toNat + 1 ∧
     (Retry (fun _ => false) (.base "c5") ⟨2, 1, 10, isRetriableDefault⟩
        (fun _ => some (.retriable none))).ret =
      annotate ("exhausted " ++ toString (2 : Int) ++ " retries")
        (some (GoErr.retriable none))) :=
  ⟨by norm_num, fun _ => rfl, fun _ => ⟨.retriable none, rfl, rfl⟩,
   retry_exhausts_budget (fun _ => false) (.base "c5")
     ⟨2, 1, 10, isRetriableDefault⟩ (fun _ => some (.retriable none))
     (by norm_num) (fun _ => rfl) (fun _ => ⟨.retriable none, rfl, rfl⟩)⟩

/-- C6: if the first `k` attempts (k ≤ NumRetries) fail retriably with the
context never done, and attempt `k` returns nil, the attempt function is
invoked exactly `k + 1` times and `Retry` returns nil: nothing runs after
the first success. -/
theorem retry_stops_at_first_success (ctxDone : Nat → Bool) (ctxErr : GoErr)
    (p : Params) (fn : Nat → Option GoErr) (k : Nat)
    (hk : (k : Int) ≤ p.NumRetries)
    (hbef : ∀ j, j < k → ctxDone j = false ∧
      ∃ e, fn j = some e ∧ p.IsRetriable e = true)
    (hdk : ctxDone k = false) (hfk : fn k = none) :
    (Retry ctxDone ctxErr p fn).ret = none ∧
    (Retry ctxDone ctxErr p fn).calls = k + 1 := by
  unfold Retry
  rw [if_neg (by omega)]
  have hfuel : k < p.NumRetries.toNat + 1 := by omega
  have h := retryLoop_success_at ctxDone ctxErr p fn k
    (p.NumRetries.toNat + 1) 0 p.RetryMinWait none hfuel
    (fun j hj => by simpa using hbef j hj)
    (by simpa using hdk) (by simpa using hfk)
  exact h

theorem retry_stops_at_first_success_witness :
    ((1 : Nat) : Int) ≤ (3 : Int) ∧
    (∀ j : Nat, j < 1 → (fun _ : Nat => false) j = false ∧
      ∃ e, (fun i : Nat => if i = 0 then some (GoErr.retriable none)
        else none) j = some e ∧
        (⟨3, 1, 10, isRetriableDefault⟩ : Params).IsRetriable e = true) ∧
    ((fun _ : Nat => false) 1 = false) ∧
    ((fun i : Nat => if i = 0 then some (GoErr.retriable none)
        else none) 1 = none) ∧
    ((Retry (fun _ => false) (.base "c6") ⟨3, 1, 10, isRetriableDefault⟩
        (fun i => if i = 0 then some (.retriable none) else none)).ret =
          none ∧
     (Retry (fun _ => false) (.base "c6") ⟨3, 1, 10, isRetriableDefault⟩
        (fun i => if i = 0 then some (.retriable none) else none)).calls =
          1 + 1) :=
  ⟨by norm_num,
   fun j hj => by
     have hj0 : j = 0 := by omega
     subst hj0
     exact ⟨rfl, .retriable none, rfl, rfl⟩,
   rfl, rfl,
   retry_stops_at_first_success (fun _ => false) (.base "c6")
     ⟨3, 1, 10, isRetriableDefault⟩
     (fun i => if i = 0 then some (.retriable none) else none) 1
     (by norm_num)
     (fun j hj => by
       have hj0 : j = 0 := by omega
       subst hj0
       exact ⟨rfl, .retriable none, rfl, rfl⟩)
     rfl rfl⟩

/-- C7: if the first `m` attempts fail retriably (context never done) and
attempt `m`, still within the budget, returns an error the classifier
rejects, `Retry` makes exactly `m + 1` invocations and returns that error
annotated as non-retriable, the cause still exposed by unwrapping. -/
theorem retry_nonretriable_stops (ctxDone : Nat → Bool) (ctxErr : GoErr)
    (p : Params) (fn : Nat → Option GoErr) (m : Nat) (e : GoErr)
    (hm : (m : Int) ≤ p.NumRetries)
    (hbef : ∀ j, j < m → ctxDone j = false ∧
      ∃ e2, fn j = some e2 ∧ p.IsRetriable e2 = true)
    (hdm : ctxDone m = false) (hfm : fn m = some e)
    (hre : p.IsRetriable e = false) :
    (Retry ctxDone ctxErr p fn).ret =
      annotate "error cannot be retried" (some e) ∧
    (Retry ctxDone ctxErr p fn).calls = m + 1 ∧
    goErrUnwrap (GoErr.annotated "error cannot be retried" (some e)) =
      some e := by
  unfold Retry
  rw [if_neg (by omega)]
  have hfuel : m < p.NumRetries.toNat + 1 := by omega
  have h := retryLoop_nonretriable_at ctxDone ctxErr p fn m
    (p.NumRetries.toNat + 1) 0 p.RetryMinWait none e hfuel
    (fun j hj => by simpa using hbef j hj)
    (by simpa using hdm) (by simpa using hfm) hre
  exact ⟨h.1, h.2, rfl⟩

theorem retry_nonretriable_stops_witness :
    ((0 : Nat) : Int) ≤ (5 : Int) ∧
    (∀ j : Nat, j < 0 → (fun _ : Nat => false) j = false ∧
      ∃ e2, (fun _ : Nat => some (GoErr.base "fatal")) j = some e2 ∧
        (⟨5, 1, 10, isRetriableDefault⟩ : Params).IsRetriable e2 = true) ∧
    ((fun _ : Nat => false) 0 = false) ∧
    ((fun _ : Nat => some (GoErr.base "fatal")) 0 =
      some (GoErr.base "fatal")) ∧
    (isRetriableDefault (GoErr.base "fatal") = false) ∧
    ((Retry (fun _ => false) (.base "c7") ⟨5, 1, 10, isRetriableDefault⟩
        (fun _ => some (.base "fatal"))).ret =
      annotate "error cannot be retried" (some (.base "fatal")) ∧
     (Retry (fun _ => false) (.base "c7") ⟨5, 1, 10, isRetriableDefault⟩
        (fun _ => some (.base "fatal"))).calls = 0 + 1 ∧
     goErrUnwrap (GoErr.annotated "error cannot be retried"
        (some (.base "fatal"))) = some (.base "fatal")) :=
  ⟨by norm_num, fun j hj => absurd hj (by omega), rfl, rfl, rfl,
   retry_nonretriable_stops (fun _ => false) (.base "c7")
     ⟨5, 1, 10, isRetriableDefault⟩ (fun _ => some (.base "fatal")) 0
     (.base "fatal") (by norm_num)
     (fun j hj => absurd hj (by omega)) rfl rfl rfl⟩

end Fetch
